import Mathlib

/-!
Verification of the format-request orchestrator `src/handler/format.ts`
(coc.nvim `FormatHandler`).  The definitions below are a shallow embedding
of that file: pure computations become Lean functions, the async control
flow of each handler becomes explicit state passing or a step relation,
awaited promise rejections become `Except`, and JS `null`/`undefined`
become `Option`.  Collaborators that live outside the file
(`workspace`, `languages`, `window`, `util` helpers) are passed in as
parameters or `Except`-valued record fields, so every theorem quantifies
over their behaviour.
-/

namespace CocFormat

/-! ### Protocol data types (vscode-languageserver-protocol)

Lines and characters are `Int` to mirror the JS number arithmetic
(`line - 1`, `position.line + changed.line`) without truncation. -/

structure Position where
  line : Int
  character : Int
deriving DecidableEq, Repr

structure Range where
  start : Position
  endPos : Position
deriving DecidableEq, Repr

structure TextEdit where
  range : Range
  newText : String
deriving DecidableEq, Repr

/-! ### String helpers

These model the JS string operations used by the handler, working on
`String.data` so that everything reduces in the kernel. -/

/-- Model of JS `s[s.length - 1]`: the last character, `none` on the empty
string (JS yields `undefined`, a falsy value). Used at line 76 of
`format.ts` (`let prevChar = pre[pre.length - 1]`). -/
def lastChar? (s : String) : Option Char :=
  s.data.getLast?

/-- Model of JS `s.trim()[0]`: the first non-whitespace character, `none`
when the string is all whitespace.  Used at line 78 (`curr.trim()[0]`). -/
def firstNonBlank? (s : String) : Option Char :=
  (s.data.dropWhile Char.isWhitespace).head?

/-- Model of JS `s.match(/^\s*/)[0]`: the leading whitespace of a line.
Used at lines 83-84. -/
def leadingWS (s : String) : String :=
  String.mk (s.data.takeWhile Char.isWhitespace)

/-- Model of JS `/^\s*$/.test(s)`: the line is blank.  Used at line 200. -/
def isBlankLine (s : String) : Bool :=
  s.data.all Char.isWhitespace

/-- The last non-blank character of a string (the spec's phrase in section
4.3); `none` when every character is blank.  This is NOT what the code
reads (the code reads the raw last character, `lastChar?`). -/
def lastNonBlank? (s : String) : Option Char :=
  (s.data.filter fun c => !c.isWhitespace).getLast?

/-! ### The bracket pair table (lines 15-21) -/

/-- The `pairs` map of `format.ts` lines 15-21, in insertion order.  Note
that it maps both directions for angle brackets: `'<' to '>'` and
`'>' to '<'`. -/
def pairs : List (Char × Char) :=
  [('<', '>'), ('>', '<'), ('{', '}'), ('[', ']'), ('(', ')')]

/-- Lookup in the pair table; models `pairs.has` / `pairs.get`. -/
def pairsGet (c : Char) : Option Char :=
  pairs.lookup c

/-! ### The bracket-enter indentation helper (Enter handler, lines 67-103)

The handler reads `pre = doc.getline(line - 1)` and
`curr = doc.getline(line)`; both lines, the filetype and the format
options are inputs here.  The output is `none` when the helper is a
no-op, and otherwise the batch of edits passed to `doc.applyEdits`
together with the `window.moveTo` target. -/

structure EnterResult where
  edits : List TextEdit
  moveTarget : Position
deriving DecidableEq, Repr

/-- One indent unit from the format options (line 82):
`opts.insertSpaces ? ' '.repeat(opts.tabSize) : '\t'`. -/
def spaceUnit (insertSpaces : Bool) (tabSize : Nat) : String :=
  if insertSpaces then String.mk (List.replicate tabSize ' ') else "\t"

/-- The edit batch and cursor target built in the body of the Enter
handler (lines 80-99), reached only when the guards passed. -/
def bracketEnterBuild (pre curr filetype : String) (insertSpaces : Bool)
    (tabSize line : Nat) : EnterResult :=
  let space := spaceUnit insertSpaces tabSize
  let preIndent := leadingWS pre
  let currIndent := leadingWS curr
  let newText0 := "\n" ++ preIndent ++ space
  let pos : Position := ⟨(line : Int) - 1, (pre.length : Int)⟩
  let edits1 : List TextEdit :=
    if preIndent ≠ currIndent then
      [⟨⟨⟨(line : Int), 0⟩, ⟨(line : Int), (currIndent.length : Int)⟩⟩,
        if filetype = "vim" then "  \\ " ++ preIndent else preIndent⟩]
    else if filetype = "vim" then
      [⟨⟨⟨(line : Int), (currIndent.length : Int)⟩,
         ⟨(line : Int), (currIndent.length : Int)⟩⟩, "  \\ "⟩]
    else []
  let newText := if filetype = "vim" then newText0 ++ "\\ " else newText0
  ⟨edits1 ++ [⟨⟨pos, pos⟩, newText⟩], ⟨(line : Int), (newText.length : Int) - 1⟩⟩

/-- The guard structure of the bracket-enter part of the Enter handler
(lines 76-100): fires only when the raw last character of `pre` is a key
of the pair table and the first non-blank character of `curr` equals the
paired character. -/
def bracketEnterRun (pre curr filetype : String) (insertSpaces : Bool)
    (tabSize line : Nat) : Option EnterResult :=
  match lastChar? pre with
  | none => none
  | some prevChar =>
    match pairsGet prevChar with
    | none => none
    | some mate =>
      match firstNonBlank? curr with
      | none => none
      | some nextChar =>
        if mate = nextChar then
          some (bracketEnterBuild pre curr filetype insertSpaces tabSize line)
        else none

/-! ### The debounced TextChangedI handler (lines 105-121)

`InsertCharPre` records `lastInsert = Date.now()` (line 108).  The
`TextChangedI` handler then correlates the change with that keystroke.
The imported predicate `isWord` (from `../util/string`) is a parameter.
`lastInsert` is `Option Nat`: `none` models JS `null`/`undefined`, and
the JS guard `!lastInsert` is additionally true for the number `0`,
hence the explicit `t = 0` disjunct. -/

structure TextChangedIInput where
  /-- `Date.now()` at the change event (assigned to `changedTs`, line 111). -/
  now : Nat
  /-- `workspace.getDocument(bufnr)` returned a document (line 114). -/
  docExists : Bool
  /-- `doc.attached` (line 115). -/
  attached : Bool
  /-- `doc.isCommandLine` (line 115). -/
  isCommandLine : Bool
  /-- `this.preferences.formatOnType` (line 118). -/
  formatOnType : Bool
  /-- `info.pre`, the text before the cursor (line 116). -/
  preText : String

/-- One step of the `TextChangedI` handler (lines 110-121).  Returns the
new value of `lastInsert` and the list of `tryFormatOnType` invocations
it performs (each recorded by its trigger character); the list is empty
or a singleton by construction of the code. -/
def onTextChangedI (isWordFn : Char → Bool) (lastInsert : Option Nat)
    (inp : TextChangedIInput) : Option Nat × List Char :=
  match lastInsert with
  | none => (none, [])
  | some t =>
    if t = 0 ∨ 300 < inp.now - t then (some t, [])
    else if inp.docExists = false ∨ inp.isCommandLine ∨ inp.attached = false then
      (none, [])
    else
      match lastChar? inp.preText with
      | none => (none, [])
      | some c =>
        if inp.formatOnType ∧ isWordFn c = false then (none, [c]) else (none, [])

/-! ### The request lifecycle result (withRequestToken, lines 149-182)

`withRequestToken` runs `fn(token)`, catches any rejection (lines
166-171, leaving the result `undefined`), and then returns `null` when
the token was cancelled (line 176), otherwise the result. -/

/-- The value `withRequestToken` returns to its caller, as a function of
whether the token was cancelled by the time the continuation resumes and
of the outcome of `fn` (a value, possibly `null`, or a rejection). -/
def withRequestTokenResult {α : Type} (cancelled : Bool)
    (fnOutcome : Except String (Option α)) : Option α :=
  let res : Option α :=
    match fnOutcome with
    | .ok r => r
    | .error _ => none
  if cancelled then none else res

/-! ### The on-type format run (tryFormatOnType, lines 184-210)

The inputs collect everything the body of `tryFormatOnType` reads after
its guards have passed: the insert-leave flag, the cursor position
captured by `window.getCursorPosition()`, the current line, the provider
call (a collaborator; it receives the computed position and may reject),
the cancellation state of the token at resumption, and the imported
`getChangedFromEdits` helper (from `../util/position`, a parameter). -/

/-- Buffer-visible side effects of an on-type run: `doc.applyEdits` and
`window.moveTo`, in order. -/
inductive Effect where
  | applyEdits : List TextEdit → Effect
  | moveTo : Position → Effect
deriving DecidableEq, Repr

structure OnTypeRunInput where
  insertLeave : Bool
  /-- Result of `window.getCursorPosition()` (line 197). -/
  cursorPos : Position
  /-- `doc.getline(position.line)` (line 198). -/
  origLine : String
  /-- The provider call `languages.provideDocumentOnTypeEdits` (line 203),
  given the computed position. -/
  provider : Position → Except String (Option (List TextEdit))
  /-- `token.isCancellationRequested` when the continuation resumes
  (line 176). -/
  cancelled : Bool
  /-- The imported `getChangedFromEdits` (line 206): net displacement of
  the original position caused by the edits, or `none`. -/
  getChangedFromEdits : Position → List TextEdit → Option Position

/-- The outcome of the `fn` closure passed to `withRequestToken` at lines
196-204: `.ok none` when the insert-leave blank-line guard returns early
(line 200), otherwise the provider result. -/
def onTypeFnOutcome (inp : OnTypeRunInput) : Except String (Option (List TextEdit)) :=
  let pos : Position :=
    if inp.insertLeave then ⟨inp.cursorPos.line, (inp.origLine.length : Int)⟩
    else inp.cursorPos
  if inp.insertLeave ∧ isBlankLine inp.origLine then .ok none
  else inp.provider pos

/-- The buffer-visible effects of one run of `tryFormatOnType` after its
guards passed (lines 196-210): with no (or empty) edits nothing happens;
otherwise the edits are applied and, when `getChangedFromEdits` computed
a displacement, the cursor is moved to the original position offset by
it (lines 205-209). -/
def tryFormatOnTypeRun (inp : OnTypeRunInput) : List Effect :=
  match withRequestTokenResult inp.cancelled (onTypeFnOutcome inp) with
  | none => []
  | some edits =>
    if edits.isEmpty then []
    else
      let changed := inp.getChangedFromEdits inp.cursorPos edits
      Effect.applyEdits edits ::
        (match changed with
         | some d =>
           [Effect.moveTo ⟨inp.cursorPos.line + d.line, inp.cursorPos.character + d.character⟩]
         | none => [])

/-- A concrete on-type run whose token was cancelled before the provider
resolved, while the provider nevertheless returned a non-empty edit
payload. -/
def c2input : OnTypeRunInput :=
  { insertLeave := false
    cursorPos := ⟨3, 5⟩
    origLine := "text"
    provider := fun _ => .ok (some [⟨⟨⟨0, 0⟩, ⟨0, 5⟩⟩, "abc"⟩])
    cancelled := true
    getChangedFromEdits := fun _ _ => some ⟨2, -5⟩ }

/-- A concrete uncancelled on-type run matching the spec's worked
example: cursor at line 3 character 5, edits whose net displacement is
(+2 lines, -5 characters). -/
def c5edit : TextEdit := ⟨⟨⟨2, 0⟩, ⟨2, 0⟩⟩, "\n\n"⟩

def c5input : OnTypeRunInput :=
  { insertLeave := false
    cursorPos := ⟨3, 5⟩
    origLine := "text"
    provider := fun _ => .ok (some [c5edit])
    cancelled := false
    getChangedFromEdits := fun _ _ => some ⟨2, -5⟩ }

/-! ### The public commands (documentFormat lines 212-225,
documentRangeFormat lines 227-250)

The collaborators are `Except`-valued: `.error` models an awaited
promise rejection (or a thrown exception), which the `async` functions
propagate to their caller unless something catches it.  The only catch
in `format.ts` is inside `withRequestToken` (lines 166-171) and covers
exactly the `fn` provider call, which is why the provider fields are
absorbed through `withRequestTokenResult` while every other collaborator
is awaited directly. -/

structure Doc where
  attached : Bool
deriving DecidableEq, Repr

structure FormatCollab where
  /-- `await workspace.document` (lines 213, 228); `ok none` models a
  falsy document. -/
  workspaceDocument : Except String (Option Doc)
  /-- `await synchronizeDocument(doc)` (lines 215, 230). -/
  synchronize : Except String Unit
  /-- `await workspace.getFormatOptions(doc.uri)` (lines 216, 241). -/
  getFormatOptions : Except String Unit
  /-- `languages.provideDocumentFormattingEdits` (line 218); may reject
  (caught by `withRequestToken`) and may resolve `null`. -/
  provideDocumentFormattingEdits : Except String (Option (List TextEdit))
  /-- `languages.provideDocumentRangeFormattingEdits` (line 243). -/
  provideDocumentRangeFormattingEdits : Range → Except String (Option (List TextEdit))
  /-- `await doc.applyEdits(textEdits)` (lines 221, 246). -/
  applyEdits : Except String Unit
  /-- `await workspace.getSelectedRange(mode, doc)` (line 233); `ok none`
  models a falsy range. -/
  getSelectedRange : Except String (Option Range)
  /-- `await nvim.eval("[v:lnum,v:count,mode()]")` (line 236). -/
  nvimEval : Except String (Int × Int × String)

/-- The shared tail of both commands (lines 220-224 and 245-249): if the
request produced a non-empty edit list, await `doc.applyEdits` (whose
rejection propagates) and report success, else report failure. -/
def applyStage {α : Type} (c : FormatCollab) (edits? : Option (List TextEdit))
    (okVal failVal : α) : Except String α :=
  match edits? with
  | some es =>
    if 0 < es.length then
      match c.applyEdits with
      | .error e => .error e
      | .ok _ => .ok okVal
    else .ok failVal
  | none => .ok failVal

/-- `documentFormat` (lines 212-225).  `.error` means the returned
promise rejects, so an exception reaches the caller. -/
def documentFormat (c : FormatCollab) (cancelled : Bool) : Except String Bool :=
  match c.workspaceDocument with
  | .error e => .error e
  | .ok none => .ok false
  | .ok (some doc) =>
    if doc.attached then
      match c.synchronize with
      | .error e => .error e
      | .ok _ =>
        match c.getFormatOptions with
        | .error e => .error e
        | .ok _ =>
          applyStage c (withRequestTokenResult cancelled c.provideDocumentFormattingEdits)
            true false
    else .ok false

/-- The `else` branch of the range resolution (lines 236-239): read
`[v:lnum, v:count, mode()]` from the editor and reject zero counts and
insert/replace mode. -/
def rangeFromEval (c : FormatCollab) : Except String (Option Range) :=
  match c.nvimEval with
  | .error e => .error e
  | .ok (lnum, count, vmode) =>
    if count = 0 ∨ vmode = "i" ∨ vmode = "R" then .ok none
    else .ok (some ⟨⟨lnum - 1, 0⟩, ⟨lnum - 1 + count, 0⟩⟩)

/-- The body of `documentRangeFormat` once a document has been obtained
(lines 229-249). -/
def documentRangeFormatBody (c : FormatCollab) (mode : String) (cancelled : Bool)
    (doc : Doc) : Except String Int :=
  if doc.attached then
    match c.synchronize with
    | .error e => .error e
    | .ok _ =>
      match (if mode ≠ "" then c.getSelectedRange else rangeFromEval c) with
      | .error e => .error e
      | .ok none => .ok (-1)
      | .ok (some range) =>
        match c.getFormatOptions with
        | .error e => .error e
        | .ok _ =>
          applyStage c
            (withRequestTokenResult cancelled
              (c.provideDocumentRangeFormattingEdits range)) 0 (-1)
  else .ok (-1)

/-- `documentRangeFormat` (lines 227-250).  `mode = ""` models a missing
(falsy) `mode` argument, matching the JS truthiness test `if (mode)`. -/
def documentRangeFormat (c : FormatCollab) (mode : String) (cancelled : Bool) :
    Except String Int :=
  match c.workspaceDocument with
  | .error e => .error e
  | .ok none => .ok (-1)
  | .ok (some doc) => documentRangeFormatBody c mode cancelled doc

/-- A collaborator assignment in which only `synchronizeDocument`
rejects; every other collaborator behaves normally. -/
def syncFailCollab : FormatCollab :=
  { workspaceDocument := .ok (some ⟨true⟩)
    synchronize := .error "sync failed"
    getFormatOptions := .ok ()
    provideDocumentFormattingEdits := .ok (some [⟨⟨⟨0, 0⟩, ⟨0, 0⟩⟩, "x"⟩])
    provideDocumentRangeFormattingEdits := fun _ => .ok (some [⟨⟨⟨0, 0⟩, ⟨0, 0⟩⟩, "x"⟩])
    applyEdits := .ok ()
    getSelectedRange := .ok (some ⟨⟨0, 0⟩, ⟨1, 0⟩⟩)
    nvimEval := .ok (1, 1, "n") }

/-! ### The save-time format (onWillSaveTextDocument, lines 40-60)

`willSaveWaitUntil` creates its own `CancellationTokenSource` and a
one-second `setTimeout` that cancels it (lines 50-53); this is the only
timer in `format.ts`.  The provider is a collaborator receiving the
cancellation state of the token at the moment it resolves (cooperative
cancellation). -/

/-- Whether a cancel timer with the given delay has fired by the time the
provider resolves. -/
def timerCancels : Option Nat → Nat → Bool
  | some delay, resolveTime => decide (delay < resolveTime)
  | none, _ => false

/-- The timer installed by `willSaveWaitUntil`: `setTimeout(() =>
tokenSource.cancel(), 1000)` at lines 51-53. -/
def saveTimerDelay : Option Nat := some 1000

/-- The timer installed by `withRequestToken` (lines 149-182): there is
none; no other formatting path contains a `setTimeout`. -/
def requestTimerDelay : Option Nat := none

structure WillSaveInput where
  /-- `languages.hasFormatProvider(event.document)` (line 45). -/
  hasProvider : Bool
  /-- `await workspace.getFormatOptions(event.document.uri)` (line 49). -/
  optionsOutcome : Except String Unit
  /-- Wall-clock time, in ms after the token source was created, at which
  the provider promise resolves. -/
  resolveTime : Nat
  /-- The provider call (line 54), as a function of whether the token was
  cancelled before it resolved. -/
  provider : Bool → Option (List TextEdit)

/-- The promise passed to `event.waitUntil` (lines 44-58): resolves to
the edits (or `undefined`) plus, for observation, whether the timer
cancelled the token; rejects when the options lookup rejects. -/
def willSaveWaitUntil (inp : WillSaveInput) :
    Except String (Option (List TextEdit) × Bool) :=
  if inp.hasProvider = false then .ok (none, false)
  else
    match inp.optionsOutcome with
    | .error e => .error e
    | .ok _ =>
      .ok (inp.provider (timerCancels saveTimerDelay inp.resolveTime),
        timerCancels saveTimerDelay inp.resolveTime)

/-- A save-time provider that honours cooperative cancellation: it
returns no edits when its token has been cancelled. -/
def c9provider : Bool → Option (List TextEdit) := fun cancelled =>
  if cancelled then none else some [⟨⟨⟨0, 0⟩, ⟨0, 0⟩⟩, "formatted"⟩]

/-! ### Constructor registrations and dispose (lines 36-134, 252-254)

The constructor registers eight handlers.  Every registration except the
last passes `this.disposables` as the disposal list; the `CursorMoved`
insert-leave registration at lines 128-133 does not.  `dispose()`
(lines 252-254) only runs `disposeAll(this.disposables)`; it neither
cancels nor disposes `this.requestTokenSource`. -/

structure Subscription where
  event : String
  /-- Whether the registration passed `this.disposables`. -/
  inDisposables : Bool
  active : Bool
deriving DecidableEq, Repr

/-- The eight registrations performed by the constructor, in source
order. -/
def constructorSubscriptions : List Subscription :=
  [⟨"workspace.onDidChangeConfiguration", true, true⟩,
   ⟨"workspace.onWillSaveTextDocument", true, true⟩,
   ⟨"events CursorMoved,CursorMovedI,InsertEnter,TextChangedI,TextChangedP,TextChanged cancel", true, true⟩,
   ⟨"events Enter", true, true⟩,
   ⟨"events InsertCharPre", true, true⟩,
   ⟨"events TextChangedI onType", true, true⟩,
   ⟨"events InsertLeave", true, true⟩,
   ⟨"events CursorMoved insertLeaveFormat", false, true⟩]

structure HandlerState where
  subs : List Subscription
  /-- `this.requestTokenSource`: `some b` is a live source whose
  cancellation flag is `b`. -/
  requestTokenSource : Option Bool
deriving DecidableEq, Repr

/-- `dispose()` (lines 252-254): `disposeAll(this.disposables)`
deactivates exactly the subscriptions that were added to
`this.disposables`, and touches nothing else. -/
def disposeHandler (st : HandlerState) : HandlerState :=
  { st with
    subs := st.subs.map fun s =>
      if s.inDisposables then { s with active := false } else s }

/-- Event names whose handlers can still fire after `dispose()`. -/
def canFireAfterDispose (st : HandlerState) : List String :=
  ((disposeHandler st).subs.filter fun s => s.active).map fun s => s.event

/-! ### Trace model of the request lifecycle

This is a small-step semantics for the interleavings the single-threaded
event loop allows between the handlers of `format.ts` that touch
cancellation token sources.  Token sources are numbered in creation
order; `slot` is `this.requestTokenSource` (an index, or `none` for
`null`/`undefined`); `pending` holds the sources whose request is still
awaiting its provider call (its continuation has not resumed yet).

Events and the code they model:
* `start` — entry of `withRequestToken` up to the suspension at
  `await Promise.resolve(fn(token))` (lines 149-167): cancels and
  disposes the slot source if any (lines 150-153), creates a fresh
  source, stores it in the slot (line 155) and begins awaiting.
* `editorCancel` — the handler of lines 61-66: cancels the slot source
  (no dispose) and nulls the slot.
* `finish j` — the continuation of the run that created source `j`
  resumes (lines 172-176): disposes whatever source is in the slot and
  clears it.
* `saveStart` — `willSaveWaitUntil` creates its own token source
  (line 50), never stored in the slot, and awaits the provider.
* `saveCancel j` — the save timer fires (lines 51-53), cancelling save
  source `j`.
* `saveFinish j` — the save provider call resolves (lines 54-56).
-/

structure SourceState where
  /-- Created by the save path (line 50) rather than by
  `withRequestToken` (line 155). -/
  save : Bool
  cancelled : Bool
  disposeCount : Nat
deriving DecidableEq, Repr

/-- Default used by `getSource` out of range; never reachable for
indices of created sources. -/
def dfltSource : SourceState := ⟨false, true, 0⟩

structure MgrState where
  sources : List SourceState
  slot : Option Nat
  pending : List Nat
deriving DecidableEq, Repr

def getSource (st : MgrState) (j : Nat) : SourceState :=
  st.sources.getD j dfltSource

/-- Pointwise update of the source list at one index. -/
def updateSource : List SourceState → Nat → (SourceState → SourceState) → List SourceState
  | [], _, _ => []
  | s :: rest, 0, f => f s :: rest
  | s :: rest, n + 1, f => s :: updateSource rest n f

inductive Ev where
  | start : Ev
  | editorCancel : Ev
  | finish : Nat → Ev
  | saveStart : Ev
  | saveCancel : Nat → Ev
  | saveFinish : Nat → Ev
deriving DecidableEq, Repr

/-- Lines 150-153: on entry of `withRequestToken`, the source in the
slot, if any, is cancelled and disposed. -/
def superseded (st : MgrState) : List SourceState :=
  match st.slot with
  | some i =>
    updateSource st.sources i fun s =>
      { s with cancelled := true, disposeCount := s.disposeCount + 1 }
  | none => st.sources

/-- Lines 172-175: a resuming continuation disposes whatever source the
slot currently holds (without cancelling it). -/
def slotDisposed (st : MgrState) : List SourceState :=
  match st.slot with
  | some i =>
    updateSource st.sources i fun s => { s with disposeCount := s.disposeCount + 1 }
  | none => st.sources

def step (st : MgrState) : Ev → MgrState
  | .start =>
    { sources := superseded st ++ [⟨false, false, 0⟩]
      slot := some (superseded st).length
      pending := st.pending ++ [(superseded st).length] }
  | .editorCancel =>
    match st.slot with
    | some i =>
      { st with
        sources := updateSource st.sources i fun s => { s with cancelled := true }
        slot := none }
    | none => st
  | .finish j =>
    if j ∈ st.pending ∧ (getSource st j).save = false then
      { sources := slotDisposed st
        slot := none
        pending := st.pending.erase j }
    else st
  | .saveStart =>
    { st with
      sources := st.sources ++ [⟨true, false, 0⟩]
      pending := st.pending ++ [st.sources.length] }
  | .saveCancel j =>
    if (getSource st j).save then
      { st with
        sources := updateSource st.sources j fun s => { s with cancelled := true } }
    else st
  | .saveFinish j =>
    if j ∈ st.pending ∧ (getSource st j).save then
      { st with pending := st.pending.erase j }
    else st

def initState : MgrState := ⟨[], none, []⟩

def runEvents (tr : List Ev) : MgrState :=
  tr.foldl step initState

/-- Number of formatting requests in flight (provider call not yet
resolved) whose cancellation token has not been cancelled. -/
def liveCount (st : MgrState) : Nat :=
  (st.pending.filter fun j => (getSource st j).cancelled = false).length

/-! #### The lifecycle invariant

`SlotOk`: whenever `this.requestTokenSource` is set, it is a source that
`withRequestToken` created (not a save source), it has not been
cancelled and has never been disposed.  `DispOk`: no source is ever
disposed more than once. -/

def SlotOk (st : MgrState) : Prop :=
  ∀ i, st.slot = some i → i < st.sources.length ∧ getSource st i = ⟨false, false, 0⟩

def DispOk (st : MgrState) : Prop :=
  ∀ j, (getSource st j).disposeCount ≤ 1

/-! ## Theorems

First sanity checks evaluating the embedding on concrete inputs, then
helper lemmas, then one theorem per claim of the specification review. -/

example : bracketEnterRun "(" ")" "txt" true 2 1 =
    some ⟨[⟨⟨⟨0, 1⟩, ⟨0, 1⟩⟩, "\n  "⟩], ⟨1, 2⟩⟩ := by decide

example : bracketEnterRun "( " ")" "txt" true 2 1 = none := by decide

example :
    onTextChangedI (fun _ => false) (some 100)
      ⟨300, true, true, false, true, "if("⟩ = (none, ['(']) := by decide

example :
    onTextChangedI (fun _ => false) (some 100)
      ⟨500, true, true, false, true, "if("⟩ = (some 100, []) := by decide

example :
    canFireAfterDispose ⟨constructorSubscriptions, some false⟩ =
      ["events CursorMoved insertLeaveFormat"] := by decide

example : liveCount (runEvents [Ev.saveStart, Ev.start]) = 2 := by decide

example :
    liveCount (runEvents [Ev.start, Ev.start, Ev.finish 0, Ev.start]) = 2 := by decide

example :
    getSource (runEvents [Ev.start, Ev.editorCancel, Ev.finish 0]) 0 =
      ⟨false, true, 0⟩ := by decide

/-! #### Helper lemmas about `updateSource` and `List.getD` -/

theorem length_updateSource (l : List SourceState) (i : Nat)
    (f : SourceState → SourceState) : (updateSource l i f).length = l.length := by
  induction l generalizing i with
  | nil => rfl
  | cons a t ih =>
    cases i with
    | zero => rfl
    | succ n => simpa [updateSource] using ih n

theorem getD_updateSource_eq (l : List SourceState) (i : Nat)
    (f : SourceState → SourceState) (d : SourceState) (h : i < l.length) :
    (updateSource l i f).getD i d = f (l.getD i d) := by
  induction l generalizing i with
  | nil => simp at h
  | cons a t ih =>
    cases i with
    | zero => rfl
    | succ n =>
      simp only [updateSource, List.getD_cons_succ]
      exact ih n (by simpa using h)

theorem getD_updateSource_ne (l : List SourceState) (i j : Nat)
    (f : SourceState → SourceState) (d : SourceState) (h : i ≠ j) :
    (updateSource l i f).getD j d = l.getD j d := by
  induction l generalizing i j with
  | nil => rfl
  | cons a t ih =>
    cases i with
    | zero =>
      cases j with
      | zero => exact absurd rfl h
      | succ m => rfl
    | succ n =>
      cases j with
      | zero => rfl
      | succ m =>
        simp only [updateSource, List.getD_cons_succ]
        exact ih n m (fun hnm => h (by omega))

theorem getD_append_lt {α : Type} (l l' : List α) (n : Nat) (d : α)
    (h : n < l.length) : (l ++ l').getD n d = l.getD n d := by
  induction l generalizing n with
  | nil => simp at h
  | cons a t ih =>
    cases n with
    | zero => rfl
    | succ m =>
      simp only [List.cons_append, List.getD_cons_succ]
      exact ih m (by simpa using h)

theorem getD_append_len {α : Type} (l : List α) (x : α) (d : α) :
    (l ++ [x]).getD l.length d = x := by
  induction l with
  | nil => rfl
  | cons a t ih => simp [List.getD_cons_succ, ih]

theorem getD_ge {α : Type} (l : List α) (n : Nat) (d : α)
    (h : l.length ≤ n) : l.getD n d = d := by
  induction l generalizing n with
  | nil => cases n <;> rfl
  | cons a t ih =>
    cases n with
    | zero => simp at h
    | succ m =>
      simp only [List.getD_cons_succ]
      exact ih m (by simpa using h)

theorem length_superseded (st : MgrState) :
    (superseded st).length = st.sources.length := by
  unfold superseded
  cases st.slot with
  | none => rfl
  | some i => exact length_updateSource _ _ _

theorem length_slotDisposed (st : MgrState) :
    (slotDisposed st).length = st.sources.length := by
  unfold slotDisposed
  cases st.slot with
  | none => rfl
  | some i => exact length_updateSource _ _ _

theorem getD_superseded_of_ne (st : MgrState) (j : Nat)
    (h : st.slot ≠ some j) :
    (superseded st).getD j dfltSource = getSource st j := by
  unfold superseded getSource
  cases hs : st.slot with
  | none => rfl
  | some i =>
    exact getD_updateSource_ne _ i j _ _ (fun hij => h (hij ▸ hs))

theorem getD_slotDisposed_of_ne (st : MgrState) (j : Nat)
    (h : st.slot ≠ some j) :
    (slotDisposed st).getD j dfltSource = getSource st j := by
  unfold slotDisposed getSource
  cases hs : st.slot with
  | none => rfl
  | some i =>
    exact getD_updateSource_ne _ i j _ _ (fun hij => h (hij ▸ hs))

theorem inv_init : SlotOk initState ∧ DispOk initState := by
  constructor
  · intro i h; cases h
  · intro j; simp [getSource, initState, dfltSource]

theorem inv_step (st : MgrState) (ev : Ev) (h1 : SlotOk st) (h2 : DispOk st) :
    SlotOk (step st ev) ∧ DispOk (step st ev) := by
  cases ev with
  | start =>
    constructor
    · intro i' hi'
      have hi2 : (superseded st).length = i' :=
        Option.some.inj (show some (superseded st).length = some i' from hi')
      subst hi2
      refine ⟨by show _ < (superseded st ++ _).length; simp, ?_⟩
      show ((superseded st ++ [(⟨false, false, 0⟩ : SourceState)]).getD
        (superseded st).length dfltSource) = _
      exact getD_append_len _ _ _
    · intro j
      show (((superseded st ++ [(⟨false, false, 0⟩ : SourceState)]).getD
        j dfltSource)).disposeCount ≤ 1
      rcases Nat.lt_trichotomy j (superseded st).length with hj | hj | hj
      · rw [getD_append_lt _ _ _ _ hj]
        by_cases hsj : st.slot = some j
        · obtain ⟨hlen, hfresh⟩ := h1 j hsj
          unfold superseded
          rw [hsj, getD_updateSource_eq _ _ _ _ hlen]
          have : st.sources.getD j dfltSource = ⟨false, false, 0⟩ := hfresh
          rw [this]
        · rw [getD_superseded_of_ne st j hsj]
          exact h2 j
      · rw [hj, getD_append_len]
        decide
      · rw [getD_ge _ _ _ (by simp; omega)]
        decide
  | editorCancel =>
    cases hs : st.slot with
    | none =>
      have hstep : step st Ev.editorCancel = st := by
        show (match st.slot with
          | some i => { st with
              sources := updateSource st.sources i fun s => { s with cancelled := true }
              slot := none }
          | none => st) = st
        rw [hs]
      rw [hstep]
      exact ⟨h1, h2⟩
    | some i =>
      have hstep : step st Ev.editorCancel =
          { st with
            sources := updateSource st.sources i fun s => { s with cancelled := true }
            slot := none } := by
        show (match st.slot with
          | some i => { st with
              sources := updateSource st.sources i fun s => { s with cancelled := true }
              slot := none }
          | none => st) = _
        rw [hs]
      rw [hstep]
      constructor
      · intro i' hi'; cases hi'
      · intro j
        show ((updateSource st.sources i _).getD j dfltSource).disposeCount ≤ 1
        by_cases hij : i = j
        · subst hij
          obtain ⟨hlen, _⟩ := h1 i hs
          rw [getD_updateSource_eq _ _ _ _ hlen]
          exact h2 i
        · rw [getD_updateSource_ne _ _ _ _ _ hij]
          exact h2 j
  | finish k =>
    by_cases hg : k ∈ st.pending ∧ (getSource st k).save = false
    · have hstep : step st (Ev.finish k) =
          { sources := slotDisposed st, slot := none, pending := st.pending.erase k } :=
        if_pos hg
      rw [hstep]
      constructor
      · intro i' hi'; cases hi'
      · intro j
        show ((slotDisposed st).getD j dfltSource).disposeCount ≤ 1
        by_cases hsj : st.slot = some j
        · obtain ⟨hlen, hfresh⟩ := h1 j hsj
          unfold slotDisposed
          rw [hsj, getD_updateSource_eq _ _ _ _ hlen]
          have : st.sources.getD j dfltSource = ⟨false, false, 0⟩ := hfresh
          rw [this]
        · rw [getD_slotDisposed_of_ne st j hsj]
          exact h2 j
    · have hstep : step st (Ev.finish k) = st := if_neg hg
      rw [hstep]
      exact ⟨h1, h2⟩
  | saveStart =>
    constructor
    · intro i' hi'
      have hi2 : st.slot = some i' := hi'
      obtain ⟨hlen, hfresh⟩ := h1 i' hi2
      refine ⟨by show _ < (st.sources ++ _).length; simp; omega, ?_⟩
      show (st.sources ++ [(⟨true, false, 0⟩ : SourceState)]).getD i' dfltSource = _
      rw [getD_append_lt _ _ _ _ hlen]
      exact hfresh
    · intro j
      show ((st.sources ++ [(⟨true, false, 0⟩ : SourceState)]).getD j dfltSource).disposeCount ≤ 1
      rcases Nat.lt_trichotomy j st.sources.length with hj | hj | hj
      · rw [getD_append_lt _ _ _ _ hj]
        exact h2 j
      · rw [hj, getD_append_len]
        decide
      · rw [getD_ge _ _ _ (by simp; omega)]
        decide
  | saveCancel k =>
    by_cases hg : (getSource st k).save = true
    · have hstep : step st (Ev.saveCancel k) =
          { st with
            sources := updateSource st.sources k fun s => { s with cancelled := true } } :=
        if_pos hg
      rw [hstep]
      constructor
      · intro i' hi'
        have hi2 : st.slot = some i' := hi'
        obtain ⟨hlen, hfresh⟩ := h1 i' hi2
        refine ⟨by rw [show (updateSource st.sources k _).length = st.sources.length from
          length_updateSource _ _ _]; exact hlen, ?_⟩
        have hik : k ≠ i' := by
          intro h; subst h
          rw [show getSource st k = ⟨false, false, 0⟩ from hfresh] at hg
          cases hg
        show (updateSource st.sources k _).getD i' dfltSource = _
        rw [getD_updateSource_ne _ _ _ _ _ hik]
        exact hfresh
      · intro j
        show ((updateSource st.sources k _).getD j dfltSource).disposeCount ≤ 1
        by_cases hkj : k = j
        · subst hkj
          rcases Nat.lt_or_ge k st.sources.length with hk | hk
          · rw [getD_updateSource_eq _ _ _ _ hk]
            exact h2 k
          · rw [getD_ge _ _ _ (by rw [length_updateSource]; exact hk)]
            decide
        · rw [getD_updateSource_ne _ _ _ _ _ hkj]
          exact h2 j
    · have hstep : step st (Ev.saveCancel k) = st := if_neg hg
      rw [hstep]
      exact ⟨h1, h2⟩
  | saveFinish k =>
    by_cases hg : k ∈ st.pending ∧ (getSource st k).save = true
    · have hstep : step st (Ev.saveFinish k) =
          { st with pending := st.pending.erase k } := if_pos hg
      rw [hstep]
      exact ⟨fun i h => h1 i h, h2⟩
    · have hstep : step st (Ev.saveFinish k) = st := if_neg hg
      rw [hstep]
      exact ⟨h1, h2⟩

theorem inv_foldl (tr : List Ev) (st : MgrState)
    (h : SlotOk st ∧ DispOk st) :
    SlotOk (tr.foldl step st) ∧ DispOk (tr.foldl step st) := by
  induction tr generalizing st with
  | nil => exact h
  | cons e t ih =>
    exact ih (step st e) (inv_step st e h.1 h.2)

theorem runEvents_inv (tr : List Ev) :
    SlotOk (runEvents tr) ∧ DispOk (runEvents tr) :=
  inv_foldl tr initState inv_init

/-- Once a source is out of the slot, no later event ever points the slot
back at it or changes its dispose count: disposal only ever happens to
the source currently in the slot (`withRequestToken` lines 150-153 and
172-175 both go through `this.requestTokenSource`). -/
theorem step_outside (st : MgrState) (ev : Ev) (j : Nat)
    (hlen : j < st.sources.length) (hslot : st.slot ≠ some j) :
    j < (step st ev).sources.length ∧ (step st ev).slot ≠ some j ∧
      (getSource (step st ev) j).disposeCount = (getSource st j).disposeCount := by
  cases ev with
  | start =>
    refine ⟨?_, ?_, ?_⟩
    · have hls := length_superseded st
      show j < (superseded st ++ [(⟨false, false, 0⟩ : SourceState)]).length
      simp
      omega
    · intro h
      have : (superseded st).length = j :=
        Option.some.inj (show some (superseded st).length = some j from h)
      rw [length_superseded] at this
      omega
    · show ((superseded st ++ [(⟨false, false, 0⟩ : SourceState)]).getD j dfltSource).disposeCount = _
      rw [getD_append_lt _ _ _ _ (by rw [length_superseded]; exact hlen)]
      rw [getD_superseded_of_ne st j hslot]
  | editorCancel =>
    cases hs : st.slot with
    | none =>
      have hstep : step st Ev.editorCancel = st := by
        show (match st.slot with
          | some i => { st with
              sources := updateSource st.sources i fun s => { s with cancelled := true }
              slot := none }
          | none => st) = st
        rw [hs]
      rw [hstep]
      exact ⟨hlen, hslot, rfl⟩
    | some i =>
      have hij : i ≠ j := fun h => hslot (h ▸ hs)
      have hstep : step st Ev.editorCancel =
          { st with
            sources := updateSource st.sources i fun s => { s with cancelled := true }
            slot := none } := by
        show (match st.slot with
          | some i => { st with
              sources := updateSource st.sources i fun s => { s with cancelled := true }
              slot := none }
          | none => st) = _
        rw [hs]
      rw [hstep]
      refine ⟨?_, ?_, ?_⟩
      · rw [show (updateSource st.sources i _).length = st.sources.length from
          length_updateSource _ _ _]
        exact hlen
      · intro h; cases h
      · show ((updateSource st.sources i _).getD j dfltSource).disposeCount = _
        rw [getD_updateSource_ne _ _ _ _ _ hij]
        rfl
  | finish k =>
    by_cases hg : k ∈ st.pending ∧ (getSource st k).save = false
    · have hstep : step st (Ev.finish k) =
          { sources := slotDisposed st, slot := none, pending := st.pending.erase k } :=
        if_pos hg
      rw [hstep]
      refine ⟨?_, ?_, ?_⟩
      · rw [show (slotDisposed st).length = st.sources.length from length_slotDisposed st]
        exact hlen
      · intro h; cases h
      · show ((slotDisposed st).getD j dfltSource).disposeCount = _
        rw [getD_slotDisposed_of_ne st j hslot]
    · have hstep : step st (Ev.finish k) = st := if_neg hg
      rw [hstep]
      exact ⟨hlen, hslot, rfl⟩
  | saveStart =>
    refine ⟨?_, hslot, ?_⟩
    · show j < (st.sources ++ [(⟨true, false, 0⟩ : SourceState)]).length
      simp
      omega
    · show ((st.sources ++ [(⟨true, false, 0⟩ : SourceState)]).getD j dfltSource).disposeCount = _
      rw [getD_append_lt _ _ _ _ hlen]
      rfl
  | saveCancel k =>
    by_cases hg : (getSource st k).save = true
    · have hstep : step st (Ev.saveCancel k) =
          { st with
            sources := updateSource st.sources k fun s => { s with cancelled := true } } :=
        if_pos hg
      rw [hstep]
      refine ⟨?_, hslot, ?_⟩
      · rw [show (updateSource st.sources k _).length = st.sources.length from
          length_updateSource _ _ _]
        exact hlen
      · show ((updateSource st.sources k _).getD j dfltSource).disposeCount = _
        by_cases hkj : k = j
        · subst hkj
          rw [getD_updateSource_eq _ _ _ _ hlen]
          rfl
        · rw [getD_updateSource_ne _ _ _ _ _ hkj]
          rfl
    · have hstep : step st (Ev.saveCancel k) = st := if_neg hg
      rw [hstep]
      exact ⟨hlen, hslot, rfl⟩
  | saveFinish k =>
    by_cases hg : k ∈ st.pending ∧ (getSource st k).save = true
    · have hstep : step st (Ev.saveFinish k) =
          { st with pending := st.pending.erase k } := if_pos hg
      rw [hstep]
      exact ⟨hlen, hslot, rfl⟩
    · have hstep : step st (Ev.saveFinish k) = st := if_neg hg
      rw [hstep]
      exact ⟨hlen, hslot, rfl⟩

theorem foldl_outside (es : List Ev) (st : MgrState) (j : Nat)
    (hlen : j < st.sources.length) (hslot : st.slot ≠ some j) :
    (getSource (es.foldl step st) j).disposeCount = (getSource st j).disposeCount := by
  induction es generalizing st with
  | nil => rfl
  | cons e t ih =>
    obtain ⟨hl, hs, he⟩ := step_outside st e j hlen hslot
    calc (getSource (t.foldl step (step st e)) j).disposeCount
        = (getSource (step st e) j).disposeCount := ih (step st e) hl hs
      _ = (getSource st j).disposeCount := he

/-! ### Claim C1 (corrected) -/

/-- Claim C1 as stated is false on the code.  Two realizable event
sequences leave two formatting requests simultaneously in flight with
uncancelled tokens: (a) a save-time format is in flight (its token
source is created at line 50, independent of `this.requestTokenSource`)
and an explicit/on-type request starts without cancelling it; (b)
request A starts, request B supersedes it, A's continuation resumes
(lines 172-175 dispose B's source and clear the slot), and request C
then starts with an empty slot, cancelling nothing — B and C are both
live. -/
theorem c1_two_live_requests :
    liveCount (runEvents [Ev.saveStart, Ev.start]) = 2 ∧
    liveCount (runEvents [Ev.start, Ev.start, Ev.finish 0, Ev.start]) = 2 := by
  decide

/-- Claim C1 (amended): the single-flight discipline is local to the
request slot: whenever `this.requestTokenSource` holds a source, that
source is live (not cancelled, never disposed), and starting a new
request through `withRequestToken` first cancels and disposes exactly
that source before installing a fresh one.  It does not extend to
save-time requests (independent token source) nor across a superseded
continuation clearing the slot. -/
theorem c1_slot_single_flight (tr : List Ev) (i : Nat)
    (h : (runEvents tr).slot = some i) :
    (getSource (runEvents tr) i).cancelled = false ∧
    (getSource (runEvents tr) i).disposeCount = 0 ∧
    (getSource (step (runEvents tr) Ev.start) i).cancelled = true ∧
    (getSource (step (runEvents tr) Ev.start) i).disposeCount = 1 ∧
    (step (runEvents tr) Ev.start).slot = some ((runEvents tr).sources.length) := by
  obtain ⟨hlen, hfresh⟩ := (runEvents_inv tr).1 i h
  have hget : (runEvents tr).sources.getD i dfltSource = ⟨false, false, 0⟩ := hfresh
  have hstepget : getSource (step (runEvents tr) Ev.start) i = ⟨false, true, 1⟩ := by
    show (superseded (runEvents tr) ++ [(⟨false, false, 0⟩ : SourceState)]).getD
      i dfltSource = _
    rw [getD_append_lt _ _ _ _ (by rw [length_superseded]; exact hlen)]
    unfold superseded
    rw [h, getD_updateSource_eq _ _ _ _ hlen, hget]
  refine ⟨by rw [show getSource (runEvents tr) i = ⟨false, false, 0⟩ from hfresh],
    by rw [show getSource (runEvents tr) i = ⟨false, false, 0⟩ from hfresh],
    by rw [hstepget], by rw [hstepget], ?_⟩
  show some (superseded (runEvents tr)).length = _
  rw [length_superseded]

theorem c1_slot_single_flight_w :
    (getSource (runEvents [Ev.start]) 0).cancelled = false ∧
    (getSource (runEvents [Ev.start]) 0).disposeCount = 0 ∧
    (getSource (step (runEvents [Ev.start]) Ev.start) 0).cancelled = true ∧
    (getSource (step (runEvents [Ev.start]) Ev.start) 0).disposeCount = 1 ∧
    (step (runEvents [Ev.start]) Ev.start).slot =
      some ((runEvents [Ev.start]).sources.length) :=
  c1_slot_single_flight [Ev.start] 0 (by decide)

/-! ### Claim C3 (corrected) -/

/-- Claim C3 as stated is false on the code.  A token source whose
request is cancelled by an editor event (lines 61-66: `cancel()` is
called, `this.requestTokenSource` is nulled, `dispose()` is not called)
is never disposed: after its request's continuation resumes and
completes, its dispose count is still zero. -/
theorem c3_editor_cancelled_handle_undisposed :
    (getSource (runEvents [Ev.start, Ev.editorCancel, Ev.finish 0]) 0).cancelled = true ∧
    (getSource (runEvents [Ev.start, Ev.editorCancel, Ev.finish 0]) 0).disposeCount = 0 := by
  decide

/-- Claim C3 (amended): every cancellation handle is disposed at most
once, and once a handle is out of the slot no later event changes its
dispose count (so a handle cancelled by an editor event, which leaves
the slot undisposed, is never disposed at all); a handle still in the
slot is disposed exactly once when it is superseded by a new request or
when a run's continuation resumes. -/
theorem c3_dispose_at_most_once :
    (∀ (tr : List Ev) (j : Nat), (getSource (runEvents tr) j).disposeCount ≤ 1) ∧
    (∀ (tr es : List Ev) (j : Nat), j < (runEvents tr).sources.length →
      (runEvents tr).slot ≠ some j →
      (getSource (runEvents (tr ++ es)) j).disposeCount =
        (getSource (runEvents tr) j).disposeCount) ∧
    (∀ (tr : List Ev) (i : Nat), (runEvents tr).slot = some i →
      (getSource (step (runEvents tr) Ev.start) i).disposeCount = 1 ∧
      ∀ k, k ∈ (runEvents tr).pending → (getSource (runEvents tr) k).save = false →
        (getSource (step (runEvents tr) (Ev.finish k)) i).disposeCount = 1) := by
  refine ⟨fun tr j => (runEvents_inv tr).2 j, fun tr es j hlen hslot => ?_, ?_⟩
  · have : runEvents (tr ++ es) = es.foldl step (runEvents tr) := by
      unfold runEvents
      rw [List.foldl_append]
    rw [this]
    exact foldl_outside es (runEvents tr) j hlen hslot
  · intro tr i h
    obtain ⟨hlen, hfresh⟩ := (runEvents_inv tr).1 i h
    have hget : (runEvents tr).sources.getD i dfltSource = ⟨false, false, 0⟩ := hfresh
    constructor
    · show ((superseded (runEvents tr) ++ [(⟨false, false, 0⟩ : SourceState)]).getD
        i dfltSource).disposeCount = 1
      rw [getD_append_lt _ _ _ _ (by rw [length_superseded]; exact hlen)]
      unfold superseded
      rw [h, getD_updateSource_eq _ _ _ _ hlen, hget]
    · intro k hk hsave
      have hstep : step (runEvents tr) (Ev.finish k) =
          { sources := slotDisposed (runEvents tr), slot := none
            pending := (runEvents tr).pending.erase k } := if_pos ⟨hk, hsave⟩
      rw [hstep]
      show ((slotDisposed (runEvents tr)).getD i dfltSource).disposeCount = 1
      unfold slotDisposed
      rw [h, getD_updateSource_eq _ _ _ _ hlen, hget]

theorem c3_dispose_at_most_once_w :
    (getSource (runEvents [Ev.start]) 0).disposeCount ≤ 1 ∧
    (getSource (runEvents ([Ev.start, Ev.editorCancel] ++ [Ev.start, Ev.finish 1])) 0).disposeCount =
      (getSource (runEvents [Ev.start, Ev.editorCancel]) 0).disposeCount ∧
    (getSource (step (runEvents [Ev.start]) Ev.start) 0).disposeCount = 1 ∧
    (getSource (step (runEvents [Ev.start]) (Ev.finish 0)) 0).disposeCount = 1 :=
  ⟨c3_dispose_at_most_once.1 [Ev.start] 0,
   c3_dispose_at_most_once.2.1 [Ev.start, Ev.editorCancel] [Ev.start, Ev.finish 1] 0
     (by decide) (by decide),
   (c3_dispose_at_most_once.2.2 [Ev.start] 0 (by decide)).1,
   (c3_dispose_at_most_once.2.2 [Ev.start] 0 (by decide)).2 0 (by decide) (by decide)⟩

/-! ### Claim C2 (confirmed) -/

/-- Claim C2: if a request's cancellation signal fires before the
provider call resolves, the resumed continuation sees
`token.isCancellationRequested` (line 176), so `withRequestToken`
returns `null` and `tryFormatOnType` applies no edits and performs no
cursor move, for any outcome of the provider call. -/
theorem c2_cancellation_suppresses_effects
    (inp : OnTypeRunInput) (out : Except String (Option (List TextEdit)))
    (h : inp.cancelled = true) :
    withRequestTokenResult inp.cancelled out = none ∧ tryFormatOnTypeRun inp = [] := by
  constructor
  · unfold withRequestTokenResult
    rw [h]
    simp
  · unfold tryFormatOnTypeRun withRequestTokenResult
    rw [h]
    simp

theorem c2_cancellation_suppresses_effects_w :
    withRequestTokenResult c2input.cancelled
      (Except.ok (some [(⟨⟨⟨0, 0⟩, ⟨0, 5⟩⟩, "abc"⟩ : TextEdit)]) :
        Except String (Option (List TextEdit))) = none ∧
    tryFormatOnTypeRun c2input = [] :=
  c2_cancellation_suppresses_effects c2input
    (Except.ok (some [(⟨⟨⟨0, 0⟩, ⟨0, 5⟩⟩, "abc"⟩ : TextEdit)])) rfl

/-! ### Claim C4 (confirmed) -/

/-- Claim C4: a `TextChangedI` event in an attached non-command-line
buffer, arriving at most 300 ms after a recorded keystroke timestamp,
with a non-word just-typed character and on-type formatting enabled,
invokes `tryFormatOnType` exactly once and clears the timestamp first;
with no recorded timestamp, or a gap above 300 ms, nothing is
invoked. -/
theorem c4_debounce (isWordFn : Char → Bool) (t : Nat) (inp : TextChangedIInput)
    (c : Char)
    (ht : 0 < t) (hgap : inp.now - t ≤ 300)
    (hdoc : inp.docExists = true) (hatt : inp.attached = true)
    (hcl : inp.isCommandLine = false) (hfot : inp.formatOnType = true)
    (hpre : lastChar? inp.preText = some c) (hw : isWordFn c = false) :
    onTextChangedI isWordFn (some t) inp = (none, [c]) ∧
    (∀ inp', onTextChangedI isWordFn none inp' = (none, [])) ∧
    (∀ (t' : Nat) (inp'' : TextChangedIInput), 300 < inp''.now - t' →
      (onTextChangedI isWordFn (some t') inp'').2 = []) := by
  refine ⟨?_, fun inp' => rfl, fun t' inp'' hg => ?_⟩
  · have h300 : ¬(t = 0 ∨ 300 < inp.now - t) := by omega
    simp [onTextChangedI, h300, hdoc, hatt, hcl, hfot, hpre, hw]
  · simp [onTextChangedI, hg]

theorem c4_debounce_w :
    onTextChangedI (fun ch => ch.isAlphanum || ch == '_') (some 100)
      ⟨300, true, true, false, true, "if("⟩ = (none, ['(']) ∧
    onTextChangedI (fun ch => ch.isAlphanum || ch == '_') none
      ⟨300, true, true, false, true, "if("⟩ = (none, []) ∧
    (onTextChangedI (fun ch => ch.isAlphanum || ch == '_') (some 100)
      ⟨500, true, true, false, true, "if("⟩).2 = [] := by
  have h := c4_debounce (fun ch => ch.isAlphanum || ch == '_') 100
    ⟨300, true, true, false, true, "if("⟩ '(' (by decide) (by decide)
    rfl rfl rfl rfl (by decide) (by decide)
  exact ⟨h.1, h.2.1 ⟨300, true, true, false, true, "if("⟩,
    h.2.2 100 ⟨500, true, true, false, true, "if("⟩ (by decide)⟩

/-! ### Claim C5 (confirmed) -/

/-- Claim C5: for an uncancelled on-type run whose provider returned a
non-empty edit list, the edits are applied and the cursor is moved to
exactly the captured position plus the displacement computed by
`getChangedFromEdits`; when no displacement is computed, the edits are
applied and no cursor move happens. -/
theorem c5_cursor_displacement (inp : OnTypeRunInput) (es : List TextEdit)
    (hc : inp.cancelled = false)
    (hout : onTypeFnOutcome inp = .ok (some es))
    (hne : es ≠ []) :
    (∀ d, inp.getChangedFromEdits inp.cursorPos es = some d →
      tryFormatOnTypeRun inp =
        [Effect.applyEdits es,
         Effect.moveTo ⟨inp.cursorPos.line + d.line,
           inp.cursorPos.character + d.character⟩]) ∧
    (inp.getChangedFromEdits inp.cursorPos es = none →
      tryFormatOnTypeRun inp = [Effect.applyEdits es]) := by
  have hres : withRequestTokenResult inp.cancelled (onTypeFnOutcome inp) = some es := by
    unfold withRequestTokenResult
    rw [hc, hout]
    simp
  have hemp : es.isEmpty = false := by
    cases es with
    | nil => exact absurd rfl hne
    | cons a t => rfl
  constructor
  · intro d hd
    unfold tryFormatOnTypeRun
    rw [hres]
    simp only [hemp, Bool.false_eq_true, if_false, hd]
  · intro hd
    unfold tryFormatOnTypeRun
    rw [hres]
    simp only [hemp, Bool.false_eq_true, if_false, hd]

theorem c5_cursor_displacement_w :
    tryFormatOnTypeRun c5input =
      [Effect.applyEdits [c5edit], Effect.moveTo ⟨5, 0⟩] := by
  have h := (c5_cursor_displacement c5input [c5edit] rfl rfl (by decide)).1
    ⟨2, -5⟩ rfl
  simpa using h

/-! ### Claim C6 (corrected) -/

/-- Claim C6 as stated is false on the code.  With previous line
consisting of an opening parenthesis followed by a trailing blank and
current line starting with the matching closing parenthesis, the
claim's conditions hold (the last non-blank character of the previous
line is a known opening delimiter whose pair-table mate is the first
non-blank character of the current line), yet the helper is a no-op:
line 76 reads the raw last character `pre[pre.length - 1]`, which is
the blank. -/
theorem c6_trailing_blank_prevents_firing :
    lastNonBlank? "( " = some '(' ∧
    pairsGet '(' = some ')' ∧
    firstNonBlank? ")" = some ')' ∧
    bracketEnterRun "( " ")" "txt" true 2 1 = none := by
  decide

/-- Claim C6 (amended): the helper is a no-op unless the raw last
character of the previous line (trailing blanks included) is a key of
the pair table and the first non-blank character of the current line is
exactly the paired character; trailing blanks after the opening
delimiter therefore prevent it from firing. -/
theorem c6_noop_unless_raw_last_char_matches
    (pre curr filetype : String) (insertSpaces : Bool) (tabSize line : Nat)
    (r : EnterResult)
    (h : bracketEnterRun pre curr filetype insertSpaces tabSize line = some r) :
    ∃ c mate, lastChar? pre = some c ∧ pairsGet c = some mate ∧
      firstNonBlank? curr = some mate := by
  unfold bracketEnterRun at h
  split at h
  · exact Option.noConfusion h
  · rename_i prevChar hc
    split at h
    · exact Option.noConfusion h
    · rename_i mate hm
      split at h
      · exact Option.noConfusion h
      · rename_i nextChar hn
        split at h
        · rename_i he
          exact ⟨prevChar, mate, hc, hm, by rw [hn, he]⟩
        · exact Option.noConfusion h

theorem c6_noop_unless_raw_last_char_matches_w :
    ∃ c mate, lastChar? "(" = some c ∧ pairsGet c = some mate ∧
      firstNonBlank? ")" = some mate :=
  c6_noop_unless_raw_last_char_matches "(" ")" "txt" true 2 1
    ⟨[⟨⟨⟨0, 1⟩, ⟨0, 1⟩⟩, "\n  "⟩], ⟨1, 2⟩⟩ (by decide)

/-! ### Claim C7 (corrected) -/

theorem applyStage_ok {α : Type} (c : FormatCollab)
    (happ : c.applyEdits = Except.ok ()) (edits? : Option (List TextEdit))
    (a b : α) :
    applyStage c edits? a b = .ok a ∨ applyStage c edits? a b = .ok b := by
  cases edits? with
  | none => exact Or.inr rfl
  | some es =>
    by_cases hl : 0 < es.length
    · left
      show (if 0 < es.length then
          (match c.applyEdits with
            | .error e => Except.error e
            | .ok _ => Except.ok a)
        else Except.ok b) = Except.ok a
      rw [if_pos hl, happ]
    · right
      show (if 0 < es.length then
          (match c.applyEdits with
            | .error e => Except.error e
            | .ok _ => Except.ok a)
        else Except.ok b) = Except.ok b
      rw [if_neg hl]

/-- Claim C7 as stated is false on the code: only the provider call runs
inside the `try` of `withRequestToken` (lines 166-171).  A rejection
from another collaborator — here `synchronizeDocument` (lines 215, 230)
— propagates out of both commands as an exception instead of a
boolean / status code. -/
theorem c7_collaborator_failure_propagates :
    documentFormat syncFailCollab false = .error "sync failed" ∧
    documentRangeFormat syncFailCollab "v" false = .error "sync failed" := by
  exact ⟨rfl, rfl⟩

/-- Claim C7 (amended): failures of the formatting provider call are the
only ones contained: when document access, synchronization, option
lookup, range resolution and edit application all succeed, the commands
never surface an exception — `documentFormat` resolves to a boolean and
`documentRangeFormat` resolves to 0 or -1 — whatever the provider does,
including rejecting.  Failures of the other collaborators propagate to
the caller (see the counterexample). -/
theorem c7_provider_failure_contained (c : FormatCollab) (cancelled : Bool)
    (od : Option Doc) (hdoc : c.workspaceDocument = .ok od)
    (hsync : c.synchronize = .ok ())
    (hopt : c.getFormatOptions = .ok ())
    (happ : c.applyEdits = .ok ())
    (orng : Option Range) (hrng : c.getSelectedRange = .ok orng)
    (v : Int × Int × String) (hev : c.nvimEval = .ok v) :
    (∃ b, documentFormat c cancelled = .ok b) ∧
    (∀ mode, documentRangeFormat c mode cancelled = .ok 0 ∨
      documentRangeFormat c mode cancelled = .ok (-1)) := by
  constructor
  · unfold documentFormat
    rw [hdoc]
    cases od with
    | none => exact ⟨false, rfl⟩
    | some doc =>
      show ∃ b, (if doc.attached = true then
          match c.synchronize with
          | .error e => Except.error e
          | .ok _ =>
            match c.getFormatOptions with
            | .error e => Except.error e
            | .ok _ =>
              applyStage c
                (withRequestTokenResult cancelled c.provideDocumentFormattingEdits)
                true false
        else Except.ok false) = Except.ok b
      by_cases hA : doc.attached = true
      · rw [if_pos hA, hsync, hopt]
        rcases applyStage_ok c happ
            (withRequestTokenResult cancelled c.provideDocumentFormattingEdits)
            true false with hs | hs
        · exact ⟨true, hs⟩
        · exact ⟨false, hs⟩
      · rw [if_neg hA]
        exact ⟨false, rfl⟩
  · intro mode
    unfold documentRangeFormat
    rw [hdoc]
    cases od with
    | none => exact Or.inr rfl
    | some doc =>
      show documentRangeFormatBody c mode cancelled doc = Except.ok 0 ∨
        documentRangeFormatBody c mode cancelled doc = Except.ok (-1)
      by_cases hA : doc.attached = true
      · unfold documentRangeFormatBody
        rw [if_pos hA, hsync]
        have hr : ∃ ro, (if mode ≠ "" then c.getSelectedRange else rangeFromEval c) =
            .ok ro := by
          by_cases hm : mode ≠ ""
          · rw [if_pos hm, hrng]
            exact ⟨orng, rfl⟩
          · rw [if_neg hm]
            unfold rangeFromEval
            rw [hev]
            obtain ⟨l, cnt, m⟩ := v
            by_cases hz : cnt = 0 ∨ m = "i" ∨ m = "R"
            · refine ⟨none, ?_⟩
              show (if cnt = 0 ∨ m = "i" ∨ m = "R" then Except.ok none
                else Except.ok (some (⟨⟨l - 1, 0⟩, ⟨l - 1 + cnt, 0⟩⟩ : Range))) = _
              rw [if_pos hz]
            · refine ⟨some (⟨⟨l - 1, 0⟩, ⟨l - 1 + cnt, 0⟩⟩ : Range), ?_⟩
              show (if cnt = 0 ∨ m = "i" ∨ m = "R" then Except.ok none
                else Except.ok (some (⟨⟨l - 1, 0⟩, ⟨l - 1 + cnt, 0⟩⟩ : Range))) = _
              rw [if_neg hz]
        obtain ⟨ro, hro⟩ := hr
        rw [hro]
        cases ro with
        | none => exact Or.inr rfl
        | some range =>
          rw [hopt]
          rcases applyStage_ok c happ
              (withRequestTokenResult cancelled
                (c.provideDocumentRangeFormattingEdits range)) 0 (-1) with hs | hs
          · exact Or.inl hs
          · exact Or.inr hs
      · unfold documentRangeFormatBody
        rw [if_neg hA]
        exact Or.inr rfl

theorem c7_provider_failure_contained_w :
    (∃ b, documentFormat ⟨.ok (some ⟨true⟩), .ok (), .ok (), .error "provider crash",
      fun _ => .error "provider crash", .ok (), .ok (some ⟨⟨0, 0⟩, ⟨1, 0⟩⟩),
      .ok (1, 1, "n")⟩ false = .ok b) ∧
    (∀ mode, documentRangeFormat ⟨.ok (some ⟨true⟩), .ok (), .ok (),
      .error "provider crash", fun _ => .error "provider crash", .ok (),
      .ok (some ⟨⟨0, 0⟩, ⟨1, 0⟩⟩), .ok (1, 1, "n")⟩ mode false = .ok 0 ∨
      documentRangeFormat ⟨.ok (some ⟨true⟩), .ok (), .ok (),
        .error "provider crash", fun _ => .error "provider crash", .ok (),
        .ok (some ⟨⟨0, 0⟩, ⟨1, 0⟩⟩), .ok (1, 1, "n")⟩ mode false = .ok (-1)) :=
  c7_provider_failure_contained _ false (some ⟨true⟩) rfl rfl rfl rfl
    (some ⟨⟨0, 0⟩, ⟨1, 0⟩⟩) rfl (1, 1, "n") rfl

/-! ### Claim C8 (code bug) -/

/-- Claim C8 describes the intended behaviour, but the code misses it in
two places: the `CursorMoved` registration at lines 128-133 is the only
`events.on` call that does not pass `this.disposables`, so its handler
survives `dispose()` and can fire again; and `dispose()` (lines
252-254) only runs `disposeAll(this.disposables)`, leaving any in-flight
`requestTokenSource` exactly as it was (neither cancelled nor
disposed). -/
theorem c8_dispose_leaves_subscription_active (ts : Option Bool) :
    canFireAfterDispose ⟨constructorSubscriptions, ts⟩ =
      ["events CursorMoved insertLeaveFormat"] ∧
    (disposeHandler ⟨constructorSubscriptions, ts⟩).requestTokenSource = ts :=
  ⟨rfl, rfl⟩

/-! ### Claim C9 (confirmed) -/

/-- Claim C9: the save-time format installs a one-second timer that
cancels its token (lines 51-53); if the provider has not resolved within
1000 ms the token is therefore cancelled before resolution, and — the
provider being cooperatively cancellable — the wait-until promise
resolves with no edits.  No other formatting path installs a timer:
`withRequestToken` has none, so timer cancellation never occurs there. -/
theorem c9_save_timeout (inp : WillSaveInput)
    (hp : inp.hasProvider = true)
    (hopt : inp.optionsOutcome = .ok ())
    (hcoop : inp.provider true = none)
    (hlate : 1000 < inp.resolveTime) :
    willSaveWaitUntil inp = .ok (none, true) ∧
    ∀ t, timerCancels requestTimerDelay t = false := by
  have hc : timerCancels saveTimerDelay inp.resolveTime = true := by
    unfold timerCancels saveTimerDelay
    exact decide_eq_true hlate
  constructor
  · unfold willSaveWaitUntil
    rw [hp, hopt, hc, hcoop]
    rfl
  · intro t
    rfl

theorem c9_save_timeout_w :
    willSaveWaitUntil ⟨true, .ok (), 1500, c9provider⟩ = .ok (none, true) ∧
    ∀ t, timerCancels requestTimerDelay t = false :=
  c9_save_timeout ⟨true, .ok (), 1500, c9provider⟩ rfl rfl rfl (by decide)

/-! ### Claim C10 (confirmed) -/

/-- Claim C10: the pair table maps the closing angle bracket back to the
opening one (line 17), so an Enter press whose previous line ends in
`>` and whose current line starts (after blanks) with `<` makes the
helper fire and insert the indented continuation line. -/
theorem c10_angle_bracket_reversed (pre curr filetype : String)
    (insertSpaces : Bool) (tabSize line : Nat)
    (hpre : lastChar? pre = some '>') (hcurr : firstNonBlank? curr = some '<') :
    pairsGet '>' = some '<' ∧
    bracketEnterRun pre curr filetype insertSpaces tabSize line =
      some (bracketEnterBuild pre curr filetype insertSpaces tabSize line) ∧
    ∃ e, e ∈ (bracketEnterBuild pre curr filetype insertSpaces tabSize line).edits ∧
      e.newText = (if filetype = "vim"
        then "\n" ++ leadingWS pre ++ spaceUnit insertSpaces tabSize ++ "\\ "
        else "\n" ++ leadingWS pre ++ spaceUnit insertSpaces tabSize) := by
  have hp : pairsGet '>' = some '<' := by decide
  refine ⟨hp, ?_, ?_⟩
  · unfold bracketEnterRun
    rw [hpre]
    show (match pairsGet '>' with
      | none => none
      | some mate =>
        match firstNonBlank? curr with
        | none => none
        | some nextChar =>
          if mate = nextChar then
            some (bracketEnterBuild pre curr filetype insertSpaces tabSize line)
          else none) = _
    rw [hp, hcurr]
    show (if '<' = '<' then
        some (bracketEnterBuild pre curr filetype insertSpaces tabSize line)
      else none) = _
    rw [if_pos rfl]
  · refine ⟨⟨⟨⟨(line : Int) - 1, (pre.length : Int)⟩,
      ⟨(line : Int) - 1, (pre.length : Int)⟩⟩,
      if filetype = "vim"
        then "\n" ++ leadingWS pre ++ spaceUnit insertSpaces tabSize ++ "\\ "
        else "\n" ++ leadingWS pre ++ spaceUnit insertSpaces tabSize⟩, ?_, rfl⟩
    show _ ∈ (bracketEnterBuild pre curr filetype insertSpaces tabSize line).edits
    exact List.mem_append_right _ (List.mem_singleton_self _)

theorem c10_angle_bracket_reversed_w :
    pairsGet '>' = some '<' ∧
    bracketEnterRun ">" "<" "x" true 1 1 =
      some (bracketEnterBuild ">" "<" "x" true 1 1) ∧
    ∃ e, e ∈ (bracketEnterBuild ">" "<" "x" true 1 1).edits ∧
      e.newText = (if "x" = "vim"
        then "\n" ++ leadingWS ">" ++ spaceUnit true 1 ++ "\\ "
        else "\n" ++ leadingWS ">" ++ spaceUnit true 1) :=
  c10_angle_bracket_reversed ">" "<" "x" true 1 1 (by decide) (by decide)

end CocFormat
